import Mathlib

/-!
Verification development for the ALTRIOS train-energy core
(`altrios-core`): a shallow embedding, in Lean 4, of the consist
power-distribution solve, the simulator step/walk drivers, the braking-point
backward recursion and lookup, the locomotive mass/force bookkeeping, and the
power-trace trimming, together with theorems checking the natural-language
specification against this embedding.

Conventions of the embedding:
* Every dimensioned scalar (power, force, mass, speed, time, ...) is a
  rational number `ℚ`; the claims under study are about control flow, data
  flow and exact algebraic relations, not about binary floating-point
  rounding.
* Rust `anyhow::Result` / `ensure!` / `bail!` become `Except Err`; a Rust
  panic (failed `assert!`, slice out of bounds, `usize` underflow,
  `unwrap` of `None`) is modelled as an error (`Option`/`Except` failure).
* `Vec::push` on the braking-point list is modelled by consing onto a
  reversed list (`rpoints`, head = most recently pushed); the final struct
  stores the list back in source order.
* Loops whose termination is not structural are given a `fuel : Nat`
  parameter; running out of fuel is the distinguished error `Err.outOfFuel`.
  Every theorem about a loop holds for all fuel values.
* Functions of the repository that the studied code calls but whose bodies
  are outside the excerpted core (power-distribution policies, per-locomotive
  powertrain solves, the train-resistance methods, the compound-mass query)
  are universally quantified parameters of the embedding, so each theorem
  holds for every behaviour of those collaborators.
-/

/-- Error values standing for the Rust `anyhow::Error` / panic outcomes.
The tags record which check failed; the Rust context strings are dropped. -/
inductive Err where
  | brakingPowerExceedsMax : Err
  | powerExceedsMax : Err
  | energyBalance : Err
  | staleRead : Err
  | ensureFailed : Err
  | indexOutOfBounds : Err
  | indexUnderflow : Err
  | unwrapFailed : Err
  | outOfFuel : Err
  | sideEffectNotAllowed : Err
  | missingValue : Err
  | locoSolveFailed : Err
  | pdctFailed : Err
  deriving DecidableEq, Repr

/-- Modelled from the spec: `utils::almost_eq_uom` (the numerical-tolerance
comparison used by the core's balance and consistency checks) is not among the
excerpted sources; the spec describes it as equality "within numerical
tolerance (~1e-6 relative)".  We model it as a relative comparison with an
absolute fallback for small magnitudes. -/
def almost_eq (a b : ℚ) : Bool :=
  |b - a| < (1 / 1000000) * max (max |a| |b|) 1

/-- Modelled from the spec: the standard gravitational acceleration constant
`uc::ACC_GRAV` (its numeric value is irrelevant to every claim below). -/
def acc_grav : ℚ := 980665 / 100000

theorem almost_eq_refl (a : ℚ) : almost_eq a a = true := by
  simp only [almost_eq, sub_self, abs_zero, decide_eq_true_eq]
  positivity

/-! ## PowerTrace (`consist/locomotive/loco_sim.rs`) and its `trim` -/

/-- Rust slice `v[s..e]` as a fallible operation: `none` models the panic on
`s > e` or `e > v.len()`. -/
def slice_range (v : List α) (s e : Nat) : Option (List α) :=
  if s ≤ e ∧ e ≤ v.length then some ((v.drop s).take (e - s)) else none

/-- `PowerTrace`: the replayable power request trace
(`consist/locomotive/loco_sim.rs`).  `engine_on` entries are optional per
sample; `train_speed` and `train_mass` are the extra hybrid-simulation
inputs. -/
structure PowerTrace where
  time : List ℚ
  pwr : List ℚ
  engine_on : List (Option Bool)
  train_speed : List ℚ
  train_mass : Option ℚ
  deriving DecidableEq, Repr

/-- `PowerTrace::len` returns the length of the `time` vector. -/
def PowerTrace.len (pt : PowerTrace) : Nat := pt.time.length

/-- `PowerTrace::trim(start_idx, end_idx)`: defaults the bounds, `ensure!`s
`end_idx <= len`, then re-slices `time`, `pwr` and `engine_on` only
(`consist/locomotive/loco_sim.rs` lines 86-95). -/
def PowerTrace.trim (pt : PowerTrace) (start_idx end_idx : Option Nat) :
    Except Err PowerTrace :=
  if end_idx.getD pt.len ≤ pt.len then
    match slice_range pt.time (start_idx.getD 0) (end_idx.getD pt.len),
        slice_range pt.pwr (start_idx.getD 0) (end_idx.getD pt.len),
        slice_range pt.engine_on (start_idx.getD 0) (end_idx.getD pt.len) with
    | some time', some pwr', some engine_on' =>
        .ok { pt with time := time', pwr := pwr', engine_on := engine_on' }
    | _, _, _ => .error .indexOutOfBounds
  else .error .ensureFailed

/-! ## Locomotive mass / traction-force bookkeeping
(`consist/locomotive/locomotive_model.rs`) -/

/-- Side-effect selector for `Locomotive::set_mass` (the locomotive level
only accepts `None`). -/
inductive MassSideEffect where
  | none : MassSideEffect
  | equipment : MassSideEffect
  | vehicle : MassSideEffect
  deriving DecidableEq, Repr

/-- Side-effect selector taken by `Locomotive::set_force_max`
(`ForceMaxSideEffect`). -/
inductive ForceMaxSideEffect where
  | mass : ForceMaxSideEffect
  | updateMu : ForceMaxSideEffect
  | setMuToNone : ForceMaxSideEffect
  | setMassToNone : ForceMaxSideEffect
  | setMassAndMuToNone : ForceMaxSideEffect
  deriving DecidableEq, Repr

/-- Side-effect selector taken by `Locomotive::set_mu` (`MuSideEffect`). -/
inductive MuSideEffect where
  | mass : MuSideEffect
  | forceMax : MuSideEffect
  | setMassToNone : MuSideEffect
  deriving DecidableEq, Repr

/-- The mass/traction fields of a `Locomotive`.  `derived_mass` summarises
`Locomotive::derived_mass()` (the sum of the powertrain constituent masses,
whose detailed case analysis over the four powertrain variants is independent
of the claims below): `some m` when the constituent masses are specified and
consistent, `none` when all are absent. -/
structure Locomotive where
  mass : Option ℚ
  mu : Option ℚ
  force_max : ℚ
  derived_mass : Option ℚ
  deriving DecidableEq, Repr

namespace Locomotive

/-- `Locomotive::check_force_max`: when both `mu` and `mass` are set,
`ensure!` that `force_max` is almost equal to `mu * mass * g`. -/
def check_force_max (l : Locomotive) : Except Err Unit :=
  match l.mu, l.mass with
  | some mu, some m =>
      if almost_eq l.force_max (mu * m * acc_grav) then .ok () else .error .ensureFailed
  | _, _ => .ok ()

/-- `Locomotive::force_max()`: runs `check_force_max` and returns the field. -/
def force_max_read (l : Locomotive) : Except Err ℚ :=
  match l.check_force_max with
  | .error e => .error e
  | .ok _ => .ok l.force_max

/-- `Locomotive::mu()`: runs `check_force_max` and returns the field. -/
def mu_read (l : Locomotive) : Except Err (Option ℚ) :=
  match l.check_force_max with
  | .error e => .error e
  | .ok _ => .ok l.mu

/-- `Locomotive::expunge_mass_fields`: clears all constituent masses, hence
the derived mass. -/
def expunge_mass_fields (l : Locomotive) : Locomotive :=
  { l with derived_mass := none }

/-- `<Locomotive as Mass>::mass()`: reconciles the directly-set mass with the
derived mass, failing on an inconsistent pair. -/
def mass_read (l : Locomotive) : Except Err (Option ℚ) :=
  match l.derived_mass, l.mass with
  | some dm, some sm =>
      if almost_eq sm dm then .ok (some sm) else .error .ensureFailed
  | none, none => .ok none
  | _, _ => .ok (l.mass.or l.derived_mass)

/-- The `self.mass = match new_mass ...` stage of `Locomotive::set_mass`:
adopt the provided mass (expunging inconsistent constituent masses) or fall
back to the derived mass, failing when neither is available. -/
def set_mass_field (l : Locomotive) (new_mass : Option ℚ) :
    Except Err Locomotive :=
  match new_mass with
  | some nm =>
      match l.derived_mass with
      | some dm =>
          if dm ≠ nm then .ok { l.expunge_mass_fields with mass := some nm }
          else .ok { l with mass := some nm }
      | none => .ok { l with mass := some nm }
  | none =>
      match l.derived_mass with
      | some dm => .ok { l with mass := some dm }
      | none => .error .missingValue

/-- `<Locomotive as Mass>::set_mass(new_mass, side_effect)`: only
`MassSideEffect::None` is allowed; sets `mass` via `set_mass_field`, then
recomputes `force_max = mu * mass * g`, requiring `mu` and the reconciled
mass to be set. -/
def set_mass (l : Locomotive) (new_mass : Option ℚ) (side_effect : MassSideEffect) :
    Except Err Locomotive :=
  if side_effect ≠ MassSideEffect.none then .error .sideEffectNotAllowed else
  match l.set_mass_field new_mass with
  | .error e => .error e
  | .ok l2 =>
      match l2.mu_read with
      | .error e => .error e
      | .ok none => .error .missingValue
      | .ok (some mu) =>
          match l2.mass_read with
          | .error e => .error e
          | .ok none => .error .missingValue
          | .ok (some m) => .ok { l2 with force_max := mu * m * acc_grav }

/-- `Locomotive::set_force_max(force_max, side_effect)`: stores the new
`force_max`, then applies the explicit side-effect selector. -/
def set_force_max (l : Locomotive) (f : ℚ) (side_effect : ForceMaxSideEffect) :
    Except Err Locomotive :=
  let l0 := { l with force_max := f }
  match side_effect with
  | .mass =>
      match l0.mu_read with
      | .error e => .error e
      | .ok none => .error .missingValue
      | .ok (some mu) => l0.set_mass (some (f / (mu * acc_grav))) MassSideEffect.none
  | .updateMu => .ok { l0 with mu := l0.mass.map (fun m => f / (m * acc_grav)) }
  | .setMuToNone => .ok { l0 with mu := none }
  | .setMassToNone => .ok { l0 with mass := none }
  | .setMassAndMuToNone => .ok { l0 with mu := none, mass := none }

/-- `Locomotive::set_mu(mu, mu_side_effect)`: stores the new `mu`, then
applies the explicit side-effect selector. -/
def set_mu (l : Locomotive) (mu : ℚ) (mu_side_effect : MuSideEffect) :
    Except Err Locomotive :=
  let l0 := { l with mu := some mu }
  match mu_side_effect with
  | .mass => l0.set_mass (some (l0.force_max / (mu * acc_grav))) MassSideEffect.none
  | .forceMax =>
      match l0.mass_read with
      | .error e => .error e
      | .ok none => .error .missingValue
      | .ok (some m) => .ok { l0 with force_max := mu * acc_grav * m }
  | .setMassToNone => .ok { l0 with mass := none }

end Locomotive

/-! ## Consist power distribution (`consist/consist_model.rs`) -/

/-- The closed powertrain-variant set (`PowertrainType`). -/
inductive PowertrainKind where
  | conventionalLoco : PowertrainKind
  | hybridLoco : PowertrainKind
  | batteryElectricLoco : PowertrainKind
  | dummyLoco : PowertrainKind
  deriving DecidableEq, Repr

/-- The per-locomotive data the consist-level solve reads: the powertrain
variant tag, the electric drivetrain's static output limit
(`edrv.pwr_out_max`, summed by `set_pwr_dyn_brake_max`), and the post-solve
component states read back by the aggregation (`fc.state.pwr_fuel`,
`res.state.pwr_out_chemical`). -/
structure ConsistLoco where
  kind : PowertrainKind
  edrv_pwr_out_max : ℚ
  fc_pwr_fuel : ℚ
  res_pwr_out_chemical : ℚ
  deriving DecidableEq, Repr

/-- `ConsistState` (`consist/consist_model.rs`): aggregate limit, demand and
achieved/integrated quantities of the consist for the current step. -/
structure ConsistState where
  i : Nat
  pwr_out_max : ℚ
  pwr_rate_out_max : ℚ
  pwr_regen_max : ℚ
  pwr_out_max_reves : ℚ
  pwr_out_deficit : ℚ
  pwr_out_max_non_reves : ℚ
  pwr_regen_deficit : ℚ
  pwr_dyn_brake_max : ℚ
  pwr_out_req : ℚ
  pwr_cat_lim : ℚ
  pwr_out : ℚ
  pwr_reves : ℚ
  pwr_fuel : ℚ
  energy_out : ℚ
  energy_out_pos : ℚ
  energy_out_neg : ℚ
  energy_res : ℚ
  energy_fuel : ℚ
  deriving DecidableEq, Repr

/-- The pluggable `PowerDistributionControlType` policy, abstracted by its
two entry points used from `solve_energy_consumption` (their bodies are not
part of the excerpted core, so every theorem below holds for every policy
behaviour).  Each returns the per-locomotive power vector or fails. -/
structure Pdct where
  solve_positive_traction :
    List ConsistLoco → ConsistState → Option ℚ → Option ℚ → Except Err (List ℚ)
  solve_negative_traction :
    List ConsistLoco → ConsistState → Option ℚ → Option ℚ → Except Err (List ℚ)

/-- The consist: its ordered locomotives, the distribution policy, the
limit-assertion flag and the aggregate state. -/
structure Consist where
  loco_vec : List ConsistLoco
  pdct : Pdct
  assert_limits : Bool
  state : ConsistState

/-- `Consist::set_pwr_dyn_brake_max`: total dynamic-braking capability as the
sum of the drivetrain static limits, with the dummy variant contributing the
large sentinel `1e15` W. -/
def set_pwr_dyn_brake_max_val (loco_vec : List ConsistLoco) : ℚ :=
  (loco_vec.map (fun loco =>
    match loco.kind with
    | .conventionalLoco => loco.edrv_pwr_out_max
    | .hybridLoco => loco.edrv_pwr_out_max
    | .batteryElectricLoco => loco.edrv_pwr_out_max
    | .dummyLoco => (1000000000000000 : ℚ))).sum

/-- Aggregate fuel power read back after the per-locomotive solves
(`state.pwr_fuel`); `nanW` stands for the IEEE `f64::NAN * uc::W` the dummy
variant contributes (ℚ has no NaN, so it is an arbitrary parameter). -/
def consist_pwr_fuel (nanW : ℚ) (loco_vec : List ConsistLoco) : ℚ :=
  (loco_vec.map (fun loco =>
    match loco.kind with
    | .conventionalLoco => loco.fc_pwr_fuel
    | .hybridLoco => loco.fc_pwr_fuel
    | .batteryElectricLoco => (0 : ℚ)
    | .dummyLoco => nanW)).sum

/-- Aggregate battery power read back after the per-locomotive solves
(`state.pwr_reves`). -/
def consist_pwr_reves (nanW : ℚ) (loco_vec : List ConsistLoco) : ℚ :=
  (loco_vec.map (fun loco =>
    match loco.kind with
    | .conventionalLoco => (0 : ℚ)
    | .hybridLoco => loco.res_pwr_out_chemical
    | .batteryElectricLoco => loco.res_pwr_out_chemical
    | .dummyLoco => nanW)).sum

/-- The per-locomotive `Locomotive::solve_energy_consumption` calls in the
zip loop, abstracted as a parameter `locoSolve` and threaded left to right;
the first failing locomotive aborts the whole solve (as `?` does). -/
def solve_locos (locoSolve : ConsistLoco → ℚ → Except Err ConsistLoco) :
    List (ConsistLoco × ℚ) → Except Err (List ConsistLoco)
  | [] => .ok []
  | (loco, p) :: rest =>
      match locoSolve loco p with
      | .error e => .error e
      | .ok loco' =>
          match solve_locos locoSolve rest with
          | .error e => .error e
          | .ok rest' => .ok (loco' :: rest')

/-- The state recorded before the policy call: demand, deficit clamps and the
recomputed dynamic-brake capability (`consist_model.rs` lines 293-300). -/
def Consist.staged_state (c : Consist) (pwr_out_req : ℚ) : ConsistState :=
  { c.state with
      pwr_out_req := pwr_out_req
      pwr_out_deficit := max (pwr_out_req - c.state.pwr_out_max_reves) 0
      pwr_regen_deficit := max (-pwr_out_req - c.state.pwr_regen_max) 0
      pwr_dyn_brake_max := set_pwr_dyn_brake_max_val c.loco_vec }

/-- The per-sign policy dispatch of `solve_energy_consumption` (lines
302-321): the policy for a strictly positive or strictly negative request,
the all-zero vector for a zero request. -/
def Consist.dispatch_vec (c : Consist) (st : ConsistState) (pwr_out_req : ℚ)
    (train_mass train_speed : Option ℚ) : Except Err (List ℚ) :=
  if 0 < pwr_out_req then
    c.pdct.solve_positive_traction c.loco_vec st train_mass train_speed
  else if pwr_out_req < 0 then
    c.pdct.solve_negative_traction c.loco_vec st train_mass train_speed
  else .ok (List.replicate c.loco_vec.length 0)

/-- The tail of `solve_energy_consumption` after the power-balance check
(lines 347-389): per-locomotive solves, aggregate fuel/battery powers and
forward-Euler energy integration. -/
def Consist.solve_tail (nanW : ℚ)
    (locoSolve : ConsistLoco → ℚ → Except Err ConsistLoco) (c : Consist)
    (st : ConsistState) (pwr_out_vec : List ℚ) (dt : ℚ) :
    Except Err (Consist × List ℚ) :=
  match solve_locos locoSolve (c.loco_vec.zip pwr_out_vec) with
  | .error e => .error e
  | .ok locos' =>
      .ok ({ c with
          loco_vec := locos'
          state := { st with
            pwr_fuel := consist_pwr_fuel nanW locos'
            pwr_reves := consist_pwr_reves nanW locos'
            energy_out := st.energy_out + st.pwr_out * dt
            energy_out_pos :=
              if 0 ≤ st.pwr_out then st.energy_out_pos + st.pwr_out * dt
              else st.energy_out_pos
            energy_out_neg :=
              if 0 ≤ st.pwr_out then st.energy_out_neg
              else st.energy_out_neg - st.pwr_out * dt
            energy_fuel := st.energy_fuel + consist_pwr_fuel nanW locos' * dt
            energy_res := st.energy_res + consist_pwr_reves nanW locos' * dt } },
        pwr_out_vec)

/-- `Consist::solve_energy_consumption` (`consist/consist_model.rs` lines
261-390): optional aggregate-limit checks, deficit recording and
dynamic-brake recomputation (`staged_state`), per-sign policy dispatch
(`dispatch_vec`), recording of the achieved total `pwr_out`, optional
power-balance check, then the per-locomotive solves and energy integration
(`solve_tail`).  Returns the updated consist together with the
per-locomotive power vector. -/
def Consist.solve_energy_consumption (nanW : ℚ)
    (locoSolve : ConsistLoco → ℚ → Except Err ConsistLoco)
    (c : Consist) (pwr_out_req : ℚ) (train_mass train_speed : Option ℚ)
    (dt : ℚ) : Except Err (Consist × List ℚ) :=
  if c.assert_limits ∧ ¬(-pwr_out_req ≤ c.state.pwr_dyn_brake_max) then
    .error .brakingPowerExceedsMax
  else if c.assert_limits ∧ ¬(pwr_out_req ≤ c.state.pwr_out_max) then
    .error .powerExceedsMax
  else
    match c.dispatch_vec (c.staged_state pwr_out_req) pwr_out_req train_mass
        train_speed with
    | .error e => .error e
    | .ok pwr_out_vec =>
        if c.assert_limits ∧
            ¬(almost_eq pwr_out_req (pwr_out_vec.foldl (· + ·) 0) = true) then
          .error .energyBalance
        else
          Consist.solve_tail nanW locoSolve c
            { c.staged_state pwr_out_req with
              pwr_out := pwr_out_vec.foldl (· + ·) 0 }
            pwr_out_vec dt

/-! ## Simulator step drivers and their phase order
(`consist/locomotive/loco_sim.rs`, `consist/consist_sim.rs`,
`train/set_speed_train_sim.rs`)

Each `Step::step` implementation is embedded as a function that runs its
sub-operations in the source order and also returns the ordered list of the
phases it actually executed (up to the first failure).  The sub-operations
themselves (`check_and_reset`, the owned component's `step` which advances
the time index, `solve_step`, `save_state`, and the stale-cell reads of the
time index) are arbitrary fallible state transformers, so the ordering
theorems hold for every behaviour of those bodies. -/

/-- One named sub-operation of a simulator step. -/
inductive Phase where
  | readIndex : Phase
  | checkAndReset : Phase
  | advanceIndex : Phase
  | solveStep : Phase
  | saveState : Phase
  deriving DecidableEq, Repr

/-- Minimal `LocomotiveSimulation` state: the locomotive's time index. -/
structure LocoSimSt where
  i : Nat
  deriving DecidableEq, Repr

/-- `<LocomotiveSimulation as Step>::step` (`loco_sim.rs` lines 323-334):
`check_and_reset`, then `loco_unit.step()` (advances `state.i`), then the
fresh read of `i`, then `solve_step`, then `save_state`. -/
def LocomotiveSimulation.step_trace
    (check_and_reset loco_step read_i solve_step save_state :
      LocoSimSt → Except Err LocoSimSt) (s : LocoSimSt) :
    List Phase × Except Err LocoSimSt :=
  match check_and_reset s with
  | .error e => ([.checkAndReset], .error e)
  | .ok s1 =>
      match loco_step s1 with
      | .error e => ([.checkAndReset, .advanceIndex], .error e)
      | .ok s2 =>
          match read_i s2 with
          | .error e => ([.checkAndReset, .advanceIndex, .readIndex], .error e)
          | .ok s3 =>
              match solve_step s3 with
              | .error e =>
                  ([.checkAndReset, .advanceIndex, .readIndex, .solveStep], .error e)
              | .ok s4 =>
                  match save_state s4 with
                  | .error e =>
                      ([.checkAndReset, .advanceIndex, .readIndex, .solveStep,
                        .saveState], .error e)
                  | .ok s5 =>
                      ([.checkAndReset, .advanceIndex, .readIndex, .solveStep,
                        .saveState], .ok s5)

/-- Minimal `ConsistSimulation` state: the consist's time index. -/
structure ConsistSimSt where
  i : Nat
  deriving DecidableEq, Repr

/-- `<ConsistSimulation as Step>::step` (`consist_sim.rs` lines 168-183):
`check_and_reset`, then `loco_con.step()` (advances `state.i`), then the
fresh read of `i`, then `solve_step`, then `save_state`. -/
def ConsistSimulation.step_trace
    (check_and_reset con_step read_i solve_step save_state :
      ConsistSimSt → Except Err ConsistSimSt) (s : ConsistSimSt) :
    List Phase × Except Err ConsistSimSt :=
  match check_and_reset s with
  | .error e => ([.checkAndReset], .error e)
  | .ok s1 =>
      match con_step s1 with
      | .error e => ([.checkAndReset, .advanceIndex], .error e)
      | .ok s2 =>
          match read_i s2 with
          | .error e => ([.checkAndReset, .advanceIndex, .readIndex], .error e)
          | .ok s3 =>
              match solve_step s3 with
              | .error e =>
                  ([.checkAndReset, .advanceIndex, .readIndex, .solveStep], .error e)
              | .ok s4 =>
                  match save_state s4 with
                  | .error e =>
                      ([.checkAndReset, .advanceIndex, .readIndex, .solveStep,
                        .saveState], .error e)
                  | .ok s5 =>
                      ([.checkAndReset, .advanceIndex, .readIndex, .solveStep,
                        .saveState], .ok s5)

/-- Minimal `SetSpeedTrainSim` state: the train's time index. -/
structure SetSpeedSimSt where
  i : Nat
  deriving DecidableEq, Repr

/-- `<SetSpeedTrainSim as Step>::step` (`set_speed_train_sim.rs` lines
567-582): the fresh read of `i` (for the error context), then
`check_and_reset`, then `state.i.increment(1)` and `loco_con.step()` (both
advance time indices), then `solve_step`, then `save_state`. -/
def SetSpeedTrainSim.step_trace
    (read_i check_and_reset incr_i con_step solve_step save_state :
      SetSpeedSimSt → Except Err SetSpeedSimSt) (s : SetSpeedSimSt) :
    List Phase × Except Err SetSpeedSimSt :=
  match read_i s with
  | .error e => ([.readIndex], .error e)
  | .ok s0 =>
      match check_and_reset s0 with
      | .error e => ([.readIndex, .checkAndReset], .error e)
      | .ok s1 =>
          match incr_i s1 with
          | .error e => ([.readIndex, .checkAndReset, .advanceIndex], .error e)
          | .ok s2 =>
              match con_step s2 with
              | .error e =>
                  ([.readIndex, .checkAndReset, .advanceIndex, .advanceIndex],
                    .error e)
              | .ok s3 =>
                  match solve_step s3 with
                  | .error e =>
                      ([.readIndex, .checkAndReset, .advanceIndex, .advanceIndex,
                        .solveStep], .error e)
                  | .ok s4 =>
                      match save_state s4 with
                      | .error e =>
                          ([.readIndex, .checkAndReset, .advanceIndex,
                            .advanceIndex, .solveStep, .saveState], .error e)
                      | .ok s5 =>
                          ([.readIndex, .checkAndReset, .advanceIndex,
                            .advanceIndex, .solveStep, .saveState], .ok s5)

/-- The ordering discipline claimed for a step's phase trace: whenever a
step advances a time index or solves any state, `check_and_reset` was
executed first — strictly before the first time-index advance and strictly
before the first state solve of that step. -/
def check_first (tr : List Phase) : Prop :=
  (Phase.advanceIndex ∈ tr ∨ Phase.solveStep ∈ tr → Phase.checkAndReset ∈ tr) ∧
  (Phase.advanceIndex ∈ tr →
    tr.indexOf Phase.checkAndReset < tr.indexOf Phase.advanceIndex) ∧
  (Phase.solveStep ∈ tr →
    tr.indexOf Phase.checkAndReset < tr.indexOf Phase.solveStep)

instance (tr : List Phase) : Decidable (check_first tr) := by
  unfold check_first; infer_instance

/-! ## `LocomotiveSimulation::walk` (`loco_sim.rs` lines 286-296) -/

/-- The `loop` inside `walk`: break once `i > len - 2` (index comparison on
the integers; Rust `usize` arithmetic meets this on every trace with at
least two samples), otherwise `step` and repeat. -/
def walk_loop (stepF : LocoSimSt → Except Err LocoSimSt) (len : Nat) :
    Nat → LocoSimSt → Except Err LocoSimSt
  | 0, _ => .error .outOfFuel
  | fuel + 1, s =>
      if (s.i : ℤ) > (len : ℤ) - 2 then .ok s
      else
        match stepF s with
        | .error e => .error e
        | .ok s' => walk_loop stepF len fuel s'

/-- `LocomotiveSimulation::walk`: `save_state`, the loop, then
`ensure!(i == power_trace.len() - 1)`. -/
def LocomotiveSimulation.walk
    (save_state stepF : LocoSimSt → Except Err LocoSimSt) (len fuel : Nat)
    (s : LocoSimSt) : Except Err LocoSimSt :=
  match save_state s with
  | .error e => .error e
  | .ok s1 =>
      match walk_loop stepF len fuel s1 with
      | .error e => .error e
      | .ok s2 =>
          if (s2.i : ℤ) = (len : ℤ) - 1 then .ok s2 else .error .ensureFailed

/-! ## BrakingPoints (`train/braking_point.rs`) -/

/-- `BrakingPoint`: one (offset, speed limit, speed target) triple. -/
structure BrakingPoint where
  offset : ℚ
  speed_limit : ℚ
  speed_target : ℚ
  deriving DecidableEq, Repr

/-- `BrakingPoint`'s `Default` derive: all-zero fields. -/
instance : Inhabited BrakingPoint := ⟨⟨0, 0, 0⟩⟩

/-- A speed-limit breakpoint of the path (`path_tpc.speed_points()`). -/
structure SpeedPoint where
  offset : ℚ
  speed_limit : ℚ
  deriving DecidableEq, Repr

/-- Modelled from the spec: the `PathTpc` interface consumed by
`BrakingPoints::recalc` — the begin/end offsets and the ordered speed-limit
breakpoints; the `PathTpc` implementation itself is outside the excerpted
core. -/
structure PathTpc where
  offset_begin : ℚ
  offset_end : ℚ
  speed_points : List SpeedPoint
  deriving DecidableEq, Repr

/-- `BrakingPoints`: the cached points (in source order, offset-descending)
plus the lookup cursor. -/
structure BrakingPoints where
  points : List BrakingPoint
  idx_curr : Nat
  deriving DecidableEq, Repr

namespace BrakingPoints

/-- The inner `while bp_curr.offset <= speed_points[idx].offset` of `recalc`:
steps `idx` backward past breakpoints at or beyond the current curve point;
`idx -= 1` at `idx == 0` is the modelled `usize` underflow panic, and a
missing breakpoint is the modelled index panic. -/
def skip_idx (sp : List SpeedPoint) (bpOffset : ℚ) : Nat → Except Err Nat
  | 0 =>
      match sp.get? 0 with
      | none => .error .indexOutOfBounds
      | some p => if bpOffset ≤ p.offset then .error .indexUnderflow else .ok 0
  | i' + 1 =>
      match sp.get? (i' + 1) with
      | none => .error .indexOutOfBounds
      | some p =>
          if bpOffset ≤ p.offset then skip_idx sp bpOffset i' else .ok (i' + 1)

/-- One pass of the curve-extension `loop` of `recalc` (lines 116-190),
fuelled.  `rpoints` is the points vector with the most recent push first;
`visited` collects each hypothetical backward state
`(bp_curr.offset, bp_curr.speed_limit)` at which the
`fric_brake.force_max + train_state.res_net() > 0` requirement is evaluated.
Returns the updated `idx`, points and visited list when the loop breaks. -/
def extend_loop (res_net : ℚ → ℚ → ℚ) (mass dt fb_force_max : ℚ)
    (sp : List SpeedPoint) (offset_begin : ℚ) :
    Nat → Nat → List BrakingPoint → List (ℚ × ℚ) →
    Except Err (Nat × List BrakingPoint × List (ℚ × ℚ))
  | 0, _, _, _ => .error .outOfFuel
  | _ + 1, _, [], _ => .error .unwrapFailed
  | fuel + 1, idx, bp_curr :: rtail, visited =>
      match skip_idx sp bp_curr.offset idx with
      | .error e => .error e
      | .ok idx1 =>
          match sp.get? idx1 with
          | none => .error .indexOutOfBounds
          | some p1 =>
              let speed_limit := |p1.speed_limit|
              let visited1 := (bp_curr.offset, bp_curr.speed_limit) :: visited
              if 0 < fb_force_max + res_net bp_curr.offset bp_curr.speed_limit then
                let vel_change :=
                  dt * (fb_force_max + res_net bp_curr.offset bp_curr.speed_limit)
                    / mass
                if speed_limit < bp_curr.speed_limit + vel_change then
                  let rpoints' :=
                    BrakingPoint.mk (bp_curr.offset - dt * speed_limit) speed_limit
                      bp_curr.speed_target :: bp_curr :: rtail
                  if bp_curr.speed_limit = |p1.speed_limit| then
                    .ok (idx1, rpoints', visited1)
                  else if (rpoints'.headI).offset < offset_begin then
                    .ok (idx1, rpoints', visited1)
                  else extend_loop res_net mass dt fb_force_max sp offset_begin
                    fuel idx1 rpoints' visited1
                else
                  let rpoints' :=
                    BrakingPoint.mk
                      (bp_curr.offset - dt * (bp_curr.speed_limit + vel_change / 2))
                      (bp_curr.speed_limit + vel_change)
                      bp_curr.speed_target :: bp_curr :: rtail
                  if (rpoints'.headI).offset < offset_begin then
                    .ok (idx1, rpoints', visited1)
                  else extend_loop res_net mass dt fb_force_max sp offset_begin
                    fuel idx1 rpoints' visited1
              else .error .ensureFailed

/-- The outer `while 0 < idx` of `recalc` (lines 112-197), fuelled: step
`idx` back, run the curve extension when the breakpoint's limit exceeds the
accumulated curve's speed, then push the breakpoint itself. -/
def recalc_loop (res_net : ℚ → ℚ → ℚ) (mass dt fb_force_max : ℚ)
    (sp : List SpeedPoint) (offset_begin : ℚ) :
    Nat → Nat → List BrakingPoint → List (ℚ × ℚ) →
    Except Err (List BrakingPoint × List (ℚ × ℚ))
  | 0, _, _, _ => .error .outOfFuel
  | _ + 1, 0, rpoints, visited => .ok (rpoints, visited)
  | fuel + 1, idx + 1, rpoints, visited =>
      match sp.get? idx with
      | none => .error .indexOutOfBounds
      | some p =>
          match (if (rpoints.headI).speed_limit < |p.speed_limit| then
              extend_loop res_net mass dt fb_force_max sp offset_begin
                (fuel + 1) idx rpoints visited
            else .ok (idx, rpoints, visited)) with
          | .error e => .error e
          | .ok (idx1, rpoints1, visited1) =>
              match sp.get? idx1 with
              | none => .error .indexOutOfBounds
              | some p1 =>
                  recalc_loop res_net mass dt fb_force_max sp offset_begin fuel
                    idx1
                    (BrakingPoint.mk p1.offset |p1.speed_limit| |p1.speed_limit|
                      :: rpoints1)
                    visited1

/-- `BrakingPoints::recalc` (lines 85-201): clear the points, push the
terminal point at the path's end offset (with the default zero speeds), walk
the breakpoints backward, and leave the cursor on the last point.
`res_net o v` abstracts `train_res.update_res` at the backward state with
offset `o` and speed `v` followed by `train_state.res_net()`; `mass`
abstracts `train_state.mass_compound()`; `dt` is the (fresh) state time
step.  Also returns the visited hypothetical backward states. -/
def recalc (res_net : ℚ → ℚ → ℚ) (mass dt fb_force_max : ℚ) (path : PathTpc)
    (fuel : Nat) : Except Err (BrakingPoints × List (ℚ × ℚ)) :=
  let rpoints := [BrakingPoint.mk path.offset_end 0 0]
  match recalc_loop res_net mass dt fb_force_max path.speed_points
      path.offset_begin fuel path.speed_points.length rpoints [] with
  | .error e => .error e
  | .ok (rpoints', visited) =>
      .ok ({ points := rpoints'.reverse, idx_curr := rpoints'.length - 1 }, visited)

/-- The cursor update at the top of `calc_speeds` (lines 55-61): reset to 0
once the first (largest-offset) point is behind the train, else walk the
cursor down while the next point's offset is at or behind the train;
`none` models the panics (empty list, index underflow, out of bounds). -/
def update_cursor (points : List BrakingPoint) (offset : ℚ) : Nat → Option Nat
  | 0 => none
  | i' + 1 =>
      match points.get? i' with
      | none => none
      | some p =>
          if p.offset ≤ offset then update_cursor points offset i'
          else some (i' + 1)

/-- The cursor value `calc_speeds` ends up with at a query offset. -/
def cursor_at (bp : BrakingPoints) (offset : ℚ) : Option Nat :=
  match bp.points.head? with
  | none => none
  | some p0 =>
      if p0.offset ≤ offset then some 0
      else update_cursor bp.points offset bp.idx_curr

/-- The lookahead scan of `calc_speeds` (lines 74-79): walk down from the
cursor while the next point is within `offset_far`, taking the minimum speed
target. -/
def lookahead_target (points : List BrakingPoint) (offset_far : ℚ) :
    Nat → ℚ → Option ℚ
  | 0, acc => some acc
  | i' + 1, acc =>
      match points.get? i' with
      | none => none
      | some p =>
          if p.offset ≤ offset_far then
            lookahead_target points offset_far i' (min acc p.speed_target)
          else some acc

/-- `BrakingPoints::calc_speeds(offset, speed, adj_ramp_up_time)` (lines
49-82): update the cursor, `assert!` the speed limit at the cursor, then
return that limit with the lookahead minimum speed target; `none` models the
assertion/panic failures. -/
def calc_speeds (bp : BrakingPoints) (offset speed adj_ramp_up_time : ℚ) :
    Option (BrakingPoints × ℚ × ℚ) :=
  match cursor_at bp offset with
  | none => none
  | some idx =>
      match bp.points.get? idx with
      | none => none
      | some p =>
          if speed ≤ p.speed_limit then
            let offset_far := offset + speed * adj_ramp_up_time
            match lookahead_target bp.points offset_far idx p.speed_target with
            | none => none
            | some target =>
                some ({ bp with idx_curr := idx }, p.speed_limit, target)
          else none

/-- The specification-side lookahead value: the minimum `speed_target` over
the cursor's entry and every strictly-earlier entry whose offset lies within
the lookahead window `offset_far`. -/
def window_target (points : List BrakingPoint) (offset_far : ℚ) (idx : Nat)
    (init : ℚ) : ℚ :=
  ((List.range idx).filter (fun j =>
      match points.get? j with
      | some q => decide (q.offset ≤ offset_far)
      | none => false)).foldl
    (fun acc j => min acc (((points.get? j).getD default).speed_target)) init

/-- Offsets are antitone in the index (the points list is offset-descending,
as produced by `recalc`). -/
def offsets_descending (points : List BrakingPoint) : Prop :=
  ∀ i j : Nat, i ≤ j → ∀ pi pj : BrakingPoint,
    points.get? i = some pi → points.get? j = some pj → pj.offset ≤ pi.offset

end BrakingPoints

/-! ## Theorems -/

theorem slice_range_eq_of_some {v : List α} {s e : Nat} {l : List α}
    (h : slice_range v s e = some l) : l = (v.drop s).take (e - s) := by
  unfold slice_range at h
  split at h
  · exact (Option.some.inj h).symm
  · exact absurd h (by simp)

/-- C10: `PowerTrace::trim(start_idx, end_idx)` fails when the (defaulted)
end index exceeds the trace length, and on success restricts exactly the
`time`, `pwr` and `engine_on` vectors to the half-open index range while
leaving `train_speed` and `train_mass` untouched. -/
theorem powertrace_trim_frame (pt : PowerTrace) (s e : Option Nat) :
    (pt.len < e.getD pt.len → pt.trim s e = .error .ensureFailed) ∧
    (∀ pt', pt.trim s e = .ok pt' →
      pt'.train_speed = pt.train_speed ∧ pt'.train_mass = pt.train_mass ∧
      pt'.time = (pt.time.drop (s.getD 0)).take (e.getD pt.len - s.getD 0) ∧
      pt'.pwr = (pt.pwr.drop (s.getD 0)).take (e.getD pt.len - s.getD 0) ∧
      pt'.engine_on =
        (pt.engine_on.drop (s.getD 0)).take (e.getD pt.len - s.getD 0)) := by
  constructor
  · intro hgt
    unfold PowerTrace.trim
    simp only [not_le.mpr hgt, if_false]
  · intro pt' h
    unfold PowerTrace.trim at h
    split at h
    · split at h
      case _ time' pwr' engine_on' ht hp he =>
        cases h
        exact ⟨rfl, rfl, slice_range_eq_of_some ht, slice_range_eq_of_some hp,
          slice_range_eq_of_some he⟩
      case _ => exact absurd h (by simp)
    · exact absurd h (by simp)

/-- C10 witness: a successful shortening trim on a concrete trace keeps
`train_speed`/`train_mass` while shortening the other three vectors. -/
theorem powertrace_trim_frame_witness :
    (PowerTrace.mk [0, 1, 2] [5, 6, 7] [some true, none, some false] [9] (some 4)).trim
        none (some 2) =
      .ok (PowerTrace.mk [0, 1] [5, 6] [some true, none] [9] (some 4)) ∧
    (PowerTrace.mk [0, 1] [5, 6] [some true, none] [9] (some 4)).train_speed =
      (PowerTrace.mk [0, 1, 2] [5, 6, 7] [some true, none, some false] [9]
          (some 4)).train_speed ∧
    (PowerTrace.mk [0, 1] [5, 6] [some true, none] [9] (some 4)).train_mass =
      (PowerTrace.mk [0, 1, 2] [5, 6, 7] [some true, none, some false] [9]
          (some 4)).train_mass := by
  refine ⟨by rfl, ?_, ?_⟩
  · exact ((powertrace_trim_frame
      (PowerTrace.mk [0, 1, 2] [5, 6, 7] [some true, none, some false] [9] (some 4))
      none (some 2)).2
      (PowerTrace.mk [0, 1] [5, 6] [some true, none] [9] (some 4)) (by rfl)).1
  · exact ((powertrace_trim_frame
      (PowerTrace.mk [0, 1, 2] [5, 6, 7] [some true, none, some false] [9] (some 4))
      none (some 2)).2
      (PowerTrace.mk [0, 1] [5, 6] [some true, none] [9] (some 4)) (by rfl)).2.1

/-- C8: whenever `LocomotiveSimulation::walk` returns without error, the
final time-step index equals `power_trace.len() - 1` (the closing `ensure!`
of `walk` forces it). -/
theorem walk_final_index (save_state stepF : LocoSimSt → Except Err LocoSimSt)
    (len fuel : Nat) (s s' : LocoSimSt)
    (h : LocomotiveSimulation.walk save_state stepF len fuel s = .ok s') :
    s'.i + 1 = len ∧ (s'.i : ℤ) = (len : ℤ) - 1 := by
  unfold LocomotiveSimulation.walk at h
  split at h
  · exact absurd h (by simp)
  · split at h
    · exact absurd h (by simp)
    · split at h
      case _ hi =>
        cases h
        refine ⟨?_, hi⟩
        omega
      · exact absurd h (by simp)

/-- C8 witness: a three-sample trace walked with an index-incrementing step
ends with the index at `len - 1 = 2`. -/
theorem walk_final_index_witness :
    (LocoSimSt.mk 2).i + 1 = 3 := by
  exact (walk_final_index (fun s => .ok s) (fun s => .ok (LocoSimSt.mk (s.i + 1)))
    3 5 (LocoSimSt.mk 0) (LocoSimSt.mk 2) (by rfl)).1

/-- C2: in all three simulator step drivers, `check_and_reset` is executed
on every step, strictly before the time index is advanced and strictly
before the step's state is solved — for every behaviour of the
sub-operations and every starting state. -/
theorem step_runs_check_and_reset_first :
    (∀ (cr adv rd slv sav : LocoSimSt → Except Err LocoSimSt) (s : LocoSimSt),
      check_first (LocomotiveSimulation.step_trace cr adv rd slv sav s).1) ∧
    (∀ (cr adv rd slv sav : ConsistSimSt → Except Err ConsistSimSt) (s : ConsistSimSt),
      check_first (ConsistSimulation.step_trace cr adv rd slv sav s).1) ∧
    (∀ (rd cr inc adv slv sav : SetSpeedSimSt → Except Err SetSpeedSimSt)
        (s : SetSpeedSimSt),
      check_first (SetSpeedTrainSim.step_trace rd cr inc adv slv sav s).1) := by
  refine ⟨?_, ?_, ?_⟩
  · intro cr adv rd slv sav s
    unfold LocomotiveSimulation.step_trace
    cases cr s with
    | error e => dsimp only; decide
    | ok s1 =>
        dsimp only
        cases adv s1 with
        | error e => dsimp only; decide
        | ok s2 =>
            dsimp only
            cases rd s2 with
            | error e => dsimp only; decide
            | ok s3 =>
                dsimp only
                cases slv s3 with
                | error e => dsimp only; decide
                | ok s4 =>
                    dsimp only
                    cases sav s4 with
                    | error e => dsimp only; decide
                    | ok s5 => dsimp only; decide
  · intro cr adv rd slv sav s
    unfold ConsistSimulation.step_trace
    cases cr s with
    | error e => dsimp only; decide
    | ok s1 =>
        dsimp only
        cases adv s1 with
        | error e => dsimp only; decide
        | ok s2 =>
            dsimp only
            cases rd s2 with
            | error e => dsimp only; decide
            | ok s3 =>
                dsimp only
                cases slv s3 with
                | error e => dsimp only; decide
                | ok s4 =>
                    dsimp only
                    cases sav s4 with
                    | error e => dsimp only; decide
                    | ok s5 => dsimp only; decide
  · intro rd cr inc adv slv sav s
    unfold SetSpeedTrainSim.step_trace
    cases rd s with
    | error e => dsimp only; decide
    | ok s0 =>
        dsimp only
        cases cr s0 with
        | error e => dsimp only; decide
        | ok s1 =>
            dsimp only
            cases inc s1 with
            | error e => dsimp only; decide
            | ok s2 =>
                dsimp only
                cases adv s2 with
                | error e => dsimp only; decide
                | ok s3 =>
                    dsimp only
                    cases slv s3 with
                    | error e => dsimp only; decide
                    | ok s4 =>
                        dsimp only
                        cases sav s4 with
                        | error e => dsimp only; decide
                        | ok s5 => dsimp only; decide

theorem mu_read_ok {l : Locomotive} {o : Option ℚ} (h : l.mu_read = .ok o) :
    o = l.mu ∧ l.check_force_max = .ok () := by
  unfold Locomotive.mu_read at h
  cases hc : l.check_force_max with
  | error e => rw [hc] at h; exact absurd h (by simp)
  | ok u => rw [hc] at h; cases u; exact ⟨(Except.ok.inj h).symm, rfl⟩

theorem mass_read_some_of_mass_some {l : Locomotive} {sm m : ℚ}
    (hm : l.mass = some sm) (h : l.mass_read = .ok (some m)) : m = sm := by
  unfold Locomotive.mass_read at h
  cases hd : l.derived_mass with
  | none =>
      simp only [hm, hd, Option.or] at h
      simpa using h.symm
  | some dm =>
      simp only [hm, hd] at h
      split at h
      · simpa using (Except.ok.inj h).symm
      · exact absurd h (by simp)

theorem set_mass_field_ok {l l2 : Locomotive} {nm : Option ℚ}
    (h : l.set_mass_field nm = .ok l2) :
    l2.mu = l.mu ∧ ∃ m, l2.mass = some m := by
  unfold Locomotive.set_mass_field at h
  cases nm with
  | some v =>
      cases hd : l.derived_mass with
      | some dm =>
          rw [hd] at h
          dsimp only at h
          split at h
          · cases h
            exact ⟨rfl, v, rfl⟩
          · cases h
            exact ⟨rfl, v, rfl⟩
      | none =>
          rw [hd] at h
          dsimp only at h
          cases h
          exact ⟨rfl, v, rfl⟩
  | none =>
      cases hd : l.derived_mass with
      | some dm =>
          rw [hd] at h
          dsimp only at h
          cases h
          exact ⟨rfl, dm, rfl⟩
      | none =>
          rw [hd] at h
          exact absurd h (by simp)

theorem set_mass_ok_check {l l' : Locomotive} {nm : Option ℚ} {se : MassSideEffect}
    (h : l.set_mass nm se = .ok l') : l'.check_force_max = .ok () := by
  unfold Locomotive.set_mass at h
  split at h
  · exact absurd h (by simp)
  · cases hf : l.set_mass_field nm with
    | error e => rw [hf] at h; exact absurd h (by simp)
    | ok l2 =>
        rw [hf] at h
        dsimp only at h
        cases hmu : l2.mu_read with
        | error e => rw [hmu] at h; exact absurd h (by simp)
        | ok o =>
            rw [hmu] at h
            cases o with
            | none => exact absurd h (by simp)
            | some mu =>
                cases hm : l2.mass_read with
                | error e => rw [hm] at h; exact absurd h (by simp)
                | ok om =>
                    rw [hm] at h
                    dsimp only at h
                    cases om with
                    | none => exact absurd h (by simp)
                    | some m =>
                        cases h
                        obtain ⟨m0, hm0⟩ := (set_mass_field_ok hf).2
                        have hmu2 : l2.mu = some mu := (mu_read_ok hmu).1.symm
                        have hmeq : m = m0 := mass_read_some_of_mass_some hm0 hm
                        unfold Locomotive.check_force_max
                        simp only [hmu2, hm0, hmeq]
                        rw [almost_eq_refl]
                        simp

/-- C6: (1) on a locomotive with both `mu` and `mass` set, the reads
`force_max()` and `mu()` succeed exactly when `force_max` is almost equal to
`mu * mass * g` — an inconsistent triple makes both reads fail; (2) each of
the three direct setters takes an explicit side-effect selector and every
successful call leaves a state on which the `force_max == mu * mass * g`
consistency check passes (for `set_force_max` this requires the physical
assumption that a set mass is nonzero). -/
theorem locomotive_force_mu_consistency :
    (∀ (l : Locomotive) (μ m : ℚ), l.mu = some μ → l.mass = some m →
      ((∃ f, l.force_max_read = .ok f) ↔
        almost_eq l.force_max (μ * m * acc_grav) = true) ∧
      ((∃ o, l.mu_read = .ok o) ↔
        almost_eq l.force_max (μ * m * acc_grav) = true)) ∧
    (∀ (l : Locomotive) (f : ℚ) (se : ForceMaxSideEffect) (l' : Locomotive),
      (∀ m, l.mass = some m → m ≠ 0) →
      l.set_force_max f se = .ok l' → l'.check_force_max = .ok ()) ∧
    (∀ (l : Locomotive) (μ : ℚ) (se : MuSideEffect) (l' : Locomotive),
      l.set_mu μ se = .ok l' → l'.check_force_max = .ok ()) ∧
    (∀ (l : Locomotive) (nm : Option ℚ) (se : MassSideEffect) (l' : Locomotive),
      l.set_mass nm se = .ok l' → l'.check_force_max = .ok ()) := by
  have hchk : ∀ (l : Locomotive) (μ m : ℚ), l.mu = some μ → l.mass = some m →
      l.check_force_max =
        (if almost_eq l.force_max (μ * m * acc_grav) then .ok () else
          .error .ensureFailed) := by
    intro l μ m hμ hm
    unfold Locomotive.check_force_max
    rw [hμ, hm]
  refine ⟨?_, ?_, ?_, ?_⟩
  · intro l μ m hμ hm
    constructor
    · constructor
      · rintro ⟨f, hf⟩
        unfold Locomotive.force_max_read at hf
        rw [hchk l μ m hμ hm] at hf
        by_contra hne
        rw [Bool.not_eq_true] at hne
        rw [hne] at hf
        exact absurd hf (by simp)
      · intro he
        refine ⟨l.force_max, ?_⟩
        unfold Locomotive.force_max_read
        rw [hchk l μ m hμ hm, he]
        simp
    · constructor
      · rintro ⟨o, ho⟩
        unfold Locomotive.mu_read at ho
        rw [hchk l μ m hμ hm] at ho
        by_contra hne
        rw [Bool.not_eq_true] at hne
        rw [hne] at ho
        exact absurd ho (by simp)
      · intro he
        refine ⟨l.mu, ?_⟩
        unfold Locomotive.mu_read
        rw [hchk l μ m hμ hm, he]
        simp
  · intro l f se l' hnz h
    unfold Locomotive.set_force_max at h
    cases se with
    | mass =>
        dsimp only at h
        cases hmu : Locomotive.mu_read { l with force_max := f } with
        | error e => rw [hmu] at h; exact absurd h (by simp)
        | ok o =>
            rw [hmu] at h
            cases o with
            | none => exact absurd h (by simp)
            | some mu => exact set_mass_ok_check h
    | updateMu =>
        dsimp only at h
        cases h
        cases hm : l.mass with
        | none =>
            unfold Locomotive.check_force_max
            simp [hm]
        | some m =>
            unfold Locomotive.check_force_max
            have hg : (acc_grav : ℚ) ≠ 0 := by norm_num [acc_grav]
            have hm0 : m ≠ 0 := hnz m hm
            have hmg : m * acc_grav ≠ 0 := mul_ne_zero hm0 hg
            have hcan : f / (m * acc_grav) * m * acc_grav = f := by
              rw [mul_assoc, div_mul_cancel₀ _ hmg]
            simp only [hm, Option.map_some', hcan, almost_eq_refl, if_true]
    | setMuToNone =>
        dsimp only at h
        cases h
        unfold Locomotive.check_force_max
        simp
    | setMassToNone =>
        dsimp only at h
        cases h
        unfold Locomotive.check_force_max
        cases hmu : l.mu <;> simp [hmu]
    | setMassAndMuToNone =>
        dsimp only at h
        cases h
        unfold Locomotive.check_force_max
        simp
  · intro l μ se l' h
    unfold Locomotive.set_mu at h
    cases se with
    | mass => exact set_mass_ok_check h
    | forceMax =>
        dsimp only at h
        cases hm : Locomotive.mass_read { l with mu := some μ } with
        | error e => rw [hm] at h; exact absurd h (by simp)
        | ok om =>
            rw [hm] at h
            cases om with
            | none => exact absurd h (by simp)
            | some m =>
                cases h
                unfold Locomotive.check_force_max
                cases hms : l.mass with
                | none => simp [hms]
                | some sm =>
                    have : m = sm := mass_read_some_of_mass_some (l := { l with mu := some μ }) hms hm
                    subst this
                    simp only [hms]
                    rw [mul_right_comm μ acc_grav m, almost_eq_refl]
                    simp
    | setMassToNone =>
        dsimp only at h
        cases h
        unfold Locomotive.check_force_max
        simp
  · intro l nm se l' h
    exact set_mass_ok_check h

theorem solve_tail_ok {nanW : ℚ} {locoSolve : ConsistLoco → ℚ → Except Err ConsistLoco}
    {c : Consist} {st : ConsistState} {vec : List ℚ} {dt : ℚ} {c' : Consist}
    {vec' : List ℚ}
    (h : Consist.solve_tail nanW locoSolve c st vec dt = .ok (c', vec')) :
    vec' = vec ∧ c'.state.pwr_out = st.pwr_out ∧
    c'.state.pwr_out_req = st.pwr_out_req ∧
    c'.state.pwr_out_deficit = st.pwr_out_deficit ∧
    c'.state.pwr_regen_deficit = st.pwr_regen_deficit := by
  unfold Consist.solve_tail at h
  cases hs : solve_locos locoSolve (c.loco_vec.zip vec) with
  | error e => rw [hs] at h; exact absurd h (by simp)
  | ok locos' =>
      rw [hs] at h
      dsimp only at h
      cases h
      exact ⟨rfl, rfl, rfl, rfl, rfl⟩

theorem solve_locos_total (locoSolve : ConsistLoco → ℚ → Except Err ConsistLoco) :
    ∀ pairs : List (ConsistLoco × ℚ),
      (∀ p ∈ pairs, ∃ l', locoSolve p.1 p.2 = .ok l') →
      ∃ out, solve_locos locoSolve pairs = .ok out := by
  intro pairs
  induction pairs with
  | nil => exact fun _ => ⟨[], rfl⟩
  | cons hd tl ih =>
      intro hp
      obtain ⟨loco, pw⟩ := hd
      obtain ⟨l', hl⟩ := hp (loco, pw) (by simp)
      obtain ⟨out, hout⟩ := ih (fun p hp' => hp p (by simp [hp']))
      refine ⟨l' :: out, ?_⟩
      unfold solve_locos
      rw [hl, hout]

/-- C1: with limit-assertion enabled, every successful
`Consist::solve_energy_consumption` records in `state.pwr_out` exactly the
sum of the per-locomotive solved powers, records the request in
`state.pwr_out_req`, and that sum is almost equal to the request — so an
out-of-balance allocation can never return `Ok`. -/
theorem consist_power_balance (nanW : ℚ)
    (locoSolve : ConsistLoco → ℚ → Except Err ConsistLoco) (c : Consist)
    (req : ℚ) (tm ts : Option ℚ) (dt : ℚ) (c' : Consist) (vec : List ℚ)
    (ha : c.assert_limits = true)
    (h : c.solve_energy_consumption nanW locoSolve req tm ts dt = .ok (c', vec)) :
    c'.state.pwr_out = vec.foldl (· + ·) 0 ∧
    c'.state.pwr_out_req = req ∧
    almost_eq req (vec.foldl (· + ·) 0) = true := by
  unfold Consist.solve_energy_consumption at h
  split at h
  · exact absurd h (by simp)
  · split at h
    · exact absurd h (by simp)
    · cases hv : c.dispatch_vec (c.staged_state req) req tm ts with
      | error e => rw [hv] at h; exact absurd h (by simp)
      | ok vec0 =>
          rw [hv] at h
          dsimp only at h
          split at h
          · exact absurd h (by simp)
          · case _ hcond =>
              obtain ⟨hvv, hpo, hpr, _, _⟩ := solve_tail_ok h
              subst hvv
              have hbal : almost_eq req (vec.foldl (· + ·) 0) = true := by
                by_contra hne
                exact hcond ⟨ha, fun hb => hne hb⟩
              exact ⟨hpo, hpr, hbal⟩

/-- C1 witness: a one-locomotive consist with limit assertion enabled, a
policy returning exactly the requested power, and a trivial per-locomotive
solve: the solve succeeds and balances. -/
theorem consist_power_balance_witness :
    (Consist.mk [ConsistLoco.mk .conventionalLoco 5 0 0]
        (Pdct.mk (fun _ _ _ _ => .ok [3]) (fun _ _ _ _ => .ok []))
        true
        (ConsistState.mk 1 10 0 0 0 0 0 0 7 0 0 0 0 0 0 0 0 0 0)).assert_limits =
      true ∧
    almost_eq 3 ([(3 : ℚ)].foldl (· + ·) 0) = true := by
  refine ⟨rfl, ?_⟩
  exact (consist_power_balance 0 (fun l _ => .ok l)
    (Consist.mk [ConsistLoco.mk .conventionalLoco 5 0 0]
      (Pdct.mk (fun _ _ _ _ => .ok [3]) (fun _ _ _ _ => .ok []))
      true
      (ConsistState.mk 1 10 0 0 0 0 0 0 7 0 0 0 0 0 0 0 0 0 0))
    3 none none 1
    (Consist.mk [ConsistLoco.mk .conventionalLoco 5 0 0]
      (Pdct.mk (fun _ _ _ _ => .ok [3]) (fun _ _ _ _ => .ok []))
      true
      (ConsistState.mk 1 10 0 0 0 3 0 0 5 3 0 3 0 0 3 3 0 0 0))
    [3] rfl
    (by norm_num [Consist.solve_energy_consumption, Consist.dispatch_vec,
      Consist.staged_state, Consist.solve_tail, solve_locos, almost_eq,
      consist_pwr_fuel, consist_pwr_reves, set_pwr_dyn_brake_max_val])).2.2

/-- C3: with limit-assertion enabled, a request beyond the aggregate
capability (`pwr_out_req > state.pwr_out_max` for traction, or
`-pwr_out_req > state.pwr_dyn_brake_max` for braking) makes
`solve_energy_consumption` fail; with it disabled, every successful solve
records the aggregate deficits, clamped at zero from below, in
`pwr_out_deficit`/`pwr_regen_deficit`, and the per-locomotive solves still
proceed (an over-capability request completes whenever the policy and the
locomotive solves themselves succeed). -/
theorem consist_limit_enforcement (nanW : ℚ)
    (locoSolve : ConsistLoco → ℚ → Except Err ConsistLoco) (c : Consist)
    (req : ℚ) (tm ts : Option ℚ) (dt : ℚ) :
    (c.assert_limits = true → c.state.pwr_dyn_brake_max < -req →
      c.solve_energy_consumption nanW locoSolve req tm ts dt =
        .error .brakingPowerExceedsMax) ∧
    (c.assert_limits = true → -req ≤ c.state.pwr_dyn_brake_max →
      c.state.pwr_out_max < req →
      c.solve_energy_consumption nanW locoSolve req tm ts dt =
        .error .powerExceedsMax) ∧
    (c.assert_limits = false →
      ∀ c' vec,
        c.solve_energy_consumption nanW locoSolve req tm ts dt = .ok (c', vec) →
        c'.state.pwr_out_deficit = max (req - c.state.pwr_out_max_reves) 0 ∧
        c'.state.pwr_regen_deficit = max (-req - c.state.pwr_regen_max) 0) ∧
    (c.assert_limits = false → 0 < req →
      ∀ vec,
        c.pdct.solve_positive_traction c.loco_vec (c.staged_state req) tm ts =
          .ok vec →
        (∀ p ∈ c.loco_vec.zip vec, ∃ l', locoSolve p.1 p.2 = .ok l') →
        ∃ c', c.solve_energy_consumption nanW locoSolve req tm ts dt =
          .ok (c', vec)) := by
  refine ⟨?_, ?_, ?_, ?_⟩
  · intro ha hbr
    unfold Consist.solve_energy_consumption
    rw [if_pos ⟨ha, not_le.mpr hbr⟩]
  · intro ha hbr htr
    unfold Consist.solve_energy_consumption
    rw [if_neg (fun hc => hc.2 hbr), if_pos ⟨ha, not_le.mpr htr⟩]
  · intro ha c' vec h
    unfold Consist.solve_energy_consumption at h
    rw [if_neg (fun hc => by rw [ha] at hc; exact absurd hc.1 (by simp)),
      if_neg (fun hc => by rw [ha] at hc; exact absurd hc.1 (by simp))] at h
    cases hv : c.dispatch_vec (c.staged_state req) req tm ts with
    | error e => rw [hv] at h; exact absurd h (by simp)
    | ok vec0 =>
        rw [hv] at h
        dsimp only at h
        rw [if_neg (fun hc => by rw [ha] at hc; exact absurd hc.1 (by simp))] at h
        obtain ⟨hvv, _, _, hdef, hreg⟩ := solve_tail_ok h
        exact ⟨hdef, hreg⟩
  · intro ha hpos vec hvec hloco
    have hdisp : c.dispatch_vec (c.staged_state req) req tm ts = .ok vec := by
      unfold Consist.dispatch_vec
      rw [if_pos hpos]
      exact hvec
    obtain ⟨out, hout⟩ := solve_locos_total locoSolve (c.loco_vec.zip vec) hloco
    have hmain : c.solve_energy_consumption nanW locoSolve req tm ts dt =
        Consist.solve_tail nanW locoSolve c
          { c.staged_state req with pwr_out := vec.foldl (· + ·) 0 } vec dt := by
      unfold Consist.solve_energy_consumption
      rw [if_neg (fun hc => by rw [ha] at hc; exact absurd hc.1 (by simp)),
        if_neg (fun hc => by rw [ha] at hc; exact absurd hc.1 (by simp)), hdisp]
      dsimp only
      rw [if_neg (fun hc => by rw [ha] at hc; exact absurd hc.1 (by simp))]
    unfold Consist.solve_tail at hmain
    rw [hout] at hmain
    dsimp only at hmain
    exact ⟨_, hmain⟩

/-- C3 witness: limit assertion disabled, a request of 3 against an
aggregate `pwr_out_max` of 1: the solve still succeeds and records the
deficit `max (3 - pwr_out_max_reves) 0 = 2` as data
(`pwr_out_max_reves = 1`). -/
theorem consist_limit_enforcement_witness :
    (1 : ℚ) < 3 ∧
    ∃ c', Consist.solve_energy_consumption 0 (fun l _ => .ok l)
      (Consist.mk [ConsistLoco.mk .conventionalLoco 5 0 0]
        (Pdct.mk (fun _ _ _ _ => .ok [3]) (fun _ _ _ _ => .ok []))
        false
        (ConsistState.mk 1 1 0 0 1 0 0 0 7 0 0 0 0 0 0 0 0 0 0))
      3 none none 1 = .ok (c', [3]) := by
  refine ⟨by norm_num, ?_⟩
  exact (consist_limit_enforcement 0 (fun l _ => .ok l)
    (Consist.mk [ConsistLoco.mk .conventionalLoco 5 0 0]
      (Pdct.mk (fun _ _ _ _ => .ok [3]) (fun _ _ _ _ => .ok []))
      false
      (ConsistState.mk 1 1 0 0 1 0 0 0 7 0 0 0 0 0 0 0 0 0 0))
    3 none none 1).2.2.2 rfl (by norm_num) [3] rfl
    (by intro p hp; exact ⟨p.1, rfl⟩)

/-- C7: for a zero power request, `solve_energy_consumption` does not invoke
the power-distribution policy at all — replacing the policy field by any
other policy leaves the whole observable outcome (updated state, updated
locomotives, returned vector, or error) unchanged — and the per-locomotive
allocation is the all-zero vector of length `loco_vec.len()`. -/
theorem consist_zero_request (nanW : ℚ)
    (locoSolve : ConsistLoco → ℚ → Except Err ConsistLoco) (c : Consist)
    (tm ts : Option ℚ) (dt : ℚ) (p' : Pdct) :
    ((c.solve_energy_consumption nanW locoSolve 0 tm ts dt).map
        (fun r => (r.1.state, r.1.loco_vec, r.2)) =
      (Consist.solve_energy_consumption nanW locoSolve { c with pdct := p' } 0
          tm ts dt).map
        (fun r => (r.1.state, r.1.loco_vec, r.2))) ∧
    (∀ c' vec,
      c.solve_energy_consumption nanW locoSolve 0 tm ts dt = .ok (c', vec) →
      vec = List.replicate c.loco_vec.length 0) := by
  have hdisp : ∀ cc : Consist,
      cc.dispatch_vec (cc.staged_state 0) 0 tm ts =
        .ok (List.replicate cc.loco_vec.length 0) := by
    intro cc
    unfold Consist.dispatch_vec
    rw [if_neg (lt_irrefl 0), if_neg (lt_irrefl 0)]
  constructor
  · unfold Consist.solve_energy_consumption
    rw [hdisp c, hdisp { c with pdct := p' }]
    dsimp only
    split_ifs with h1 h2 h3
    · rfl
    · rfl
    · rfl
    · unfold Consist.solve_tail
      cases hout : solve_locos locoSolve
          (c.loco_vec.zip (List.replicate c.loco_vec.length 0)) with
      | error e => rfl
      | ok locos' => rfl
  · intro c' vec h
    unfold Consist.solve_energy_consumption at h
    split at h
    · exact absurd h (by simp)
    · split at h
      · exact absurd h (by simp)
      · rw [hdisp c] at h
        dsimp only at h
        split at h
        · exact absurd h (by simp)
        · exact (solve_tail_ok h).1

/-- C7 witness: a successful zero-request solve on a one-locomotive consist
yields the all-zero allocation `[0] = replicate 1 0`. -/
theorem consist_zero_request_witness :
    ([(0 : ℚ)]) = List.replicate 1 (0 : ℚ) := by
  exact (consist_zero_request 0 (fun l _ => .ok l)
    (Consist.mk [ConsistLoco.mk .conventionalLoco 5 0 0]
      (Pdct.mk (fun _ _ _ _ => .ok [3]) (fun _ _ _ _ => .ok []))
      true
      (ConsistState.mk 1 10 0 0 0 0 0 0 7 0 0 0 0 0 0 0 0 0 0))
    none none 1
    (Pdct.mk (fun _ _ _ _ => .error .pdctFailed)
      (fun _ _ _ _ => .error .pdctFailed))).2
    (Consist.mk [ConsistLoco.mk .conventionalLoco 5 0 0]
      (Pdct.mk (fun _ _ _ _ => .ok [3]) (fun _ _ _ _ => .ok []))
      true
      (ConsistState.mk 1 10 0 0 0 0 0 0 5 0 0 0 0 0 0 0 0 0 0))
    [0]
    (by norm_num [Consist.solve_energy_consumption, Consist.dispatch_vec,
      Consist.staged_state, Consist.solve_tail, solve_locos, almost_eq,
      consist_pwr_fuel, consist_pwr_reves, set_pwr_dyn_brake_max_val])

/-- C6 witness: a consistent locomotive (mass 100, traction coefficient 2,
`force_max = 2 * 100 * g`) reads successfully, and a `set_force_max` with the
`UpdateMu` side effect re-establishes the `force_max == mu * mass * g`
consistency check. -/
theorem locomotive_force_mu_consistency_witness :
    ((∃ f, (Locomotive.mk (some 100) (some 2) (2 * 100 * acc_grav)
        none).force_max_read = .ok f) ↔
      almost_eq (Locomotive.mk (some 100) (some 2) (2 * 100 * acc_grav)
          none).force_max (2 * 100 * acc_grav) = true) ∧
    (Locomotive.mk (some 100) (some (500 / (100 * acc_grav))) 500
        none).check_force_max = .ok () := by
  constructor
  · exact (locomotive_force_mu_consistency.1
      (Locomotive.mk (some 100) (some 2) (2 * 100 * acc_grav) none) 2 100 rfl
      rfl).1
  · exact locomotive_force_mu_consistency.2.1
      (Locomotive.mk (some 100) (some 2) (2 * 100 * acc_grav) none) 500
      ForceMaxSideEffect.updateMu
      (Locomotive.mk (some 100) (some (500 / (100 * acc_grav))) 500 none)
      (by intro m hm; rw [← Option.some.inj hm]; norm_num)
      (by rfl)

theorem getLast?_cons_of_ne_nil {α : Type} {l : List α} (a : α) (h : l ≠ []) :
    (a :: l).getLast? = l.getLast? := by
  cases l with
  | nil => exact absurd rfl h
  | cons b t => exact List.getLast?_cons_cons

theorem extend_loop_inv (res_net : ℚ → ℚ → ℚ) (mass dt fb : ℚ)
    (sp : List SpeedPoint) (ob : ℚ) :
    ∀ (fuel idx : Nat) (rpoints : List BrakingPoint) (visited : List (ℚ × ℚ))
      (idx1 : Nat) (rp' : List BrakingPoint) (vis' : List (ℚ × ℚ)),
      BrakingPoints.extend_loop res_net mass dt fb sp ob fuel idx rpoints
        visited = .ok (idx1, rp', vis') →
      rp' ≠ [] ∧
      ((∀ s ∈ visited, 0 < fb + res_net s.1 s.2) →
        ∀ s ∈ vis', 0 < fb + res_net s.1 s.2) ∧
      rp'.getLast? = rpoints.getLast? := by
  intro fuel
  induction fuel with
  | zero =>
      intro idx rp vis i r v h
      exact absurd h (by simp [BrakingPoints.extend_loop])
  | succ f ih =>
      intro idx rp vis i r v h
      match rp with
      | [] => exact absurd h (by simp [BrakingPoints.extend_loop])
      | bp :: rtail =>
          unfold BrakingPoints.extend_loop at h
          cases hsk : BrakingPoints.skip_idx sp bp.offset idx with
          | error e => rw [hsk] at h; exact absurd h (by simp)
          | ok idx1 =>
              rw [hsk] at h
              dsimp only at h
              cases hg : sp.get? idx1 with
              | none => rw [hg] at h; exact absurd h (by simp)
              | some p1 =>
                  rw [hg] at h
                  dsimp only at h
                  split at h
                  case _ hcond =>
                    split at h
                    · split at h
                      · cases h
                        refine ⟨by simp, ?_, List.getLast?_cons_cons⟩
                        intro hv s hs
                        rcases List.mem_cons.mp hs with hs | hs
                        · subst hs; exact hcond
                        · exact hv s hs
                      · split at h
                        · cases h
                          refine ⟨by simp, ?_, List.getLast?_cons_cons⟩
                          intro hv s hs
                          rcases List.mem_cons.mp hs with hs | hs
                          · subst hs; exact hcond
                          · exact hv s hs
                        · obtain ⟨hne, hgood, hlast⟩ := ih _ _ _ _ _ _ h
                          refine ⟨hne, ?_, hlast.trans List.getLast?_cons_cons⟩
                          intro hv
                          refine hgood ?_
                          intro s hs
                          rcases List.mem_cons.mp hs with hs | hs
                          · subst hs; exact hcond
                          · exact hv s hs
                    · split at h
                      · cases h
                        refine ⟨by simp, ?_, List.getLast?_cons_cons⟩
                        intro hv s hs
                        rcases List.mem_cons.mp hs with hs | hs
                        · subst hs; exact hcond
                        · exact hv s hs
                      · obtain ⟨hne, hgood, hlast⟩ := ih _ _ _ _ _ _ h
                        refine ⟨hne, ?_, hlast.trans List.getLast?_cons_cons⟩
                        intro hv
                        refine hgood ?_
                        intro s hs
                        rcases List.mem_cons.mp hs with hs | hs
                        · subst hs; exact hcond
                        · exact hv s hs
                  case _ => exact absurd h (by simp)

theorem recalc_loop_inv (res_net : ℚ → ℚ → ℚ) (mass dt fb : ℚ)
    (sp : List SpeedPoint) (ob : ℚ) :
    ∀ (fuel idx : Nat) (rpoints : List BrakingPoint) (visited : List (ℚ × ℚ))
      (rp' : List BrakingPoint) (vis' : List (ℚ × ℚ)),
      BrakingPoints.recalc_loop res_net mass dt fb sp ob fuel idx rpoints
        visited = .ok (rp', vis') →
      (rpoints ≠ [] → rp' ≠ []) ∧
      ((∀ s ∈ visited, 0 < fb + res_net s.1 s.2) →
        ∀ s ∈ vis', 0 < fb + res_net s.1 s.2) ∧
      (rpoints ≠ [] → rp'.getLast? = rpoints.getLast?) := by
  intro fuel
  induction fuel with
  | zero =>
      intro idx rp vis r v h
      exact absurd h (by simp [BrakingPoints.recalc_loop])
  | succ f ih =>
      intro idx rp vis r v h
      match idx with
      | 0 =>
          unfold BrakingPoints.recalc_loop at h
          cases h
          exact ⟨fun hne => hne, fun hv => hv, fun _ => rfl⟩
      | idx0 + 1 =>
          unfold BrakingPoints.recalc_loop at h
          cases hg : sp.get? idx0 with
          | none => rw [hg] at h; exact absurd h (by simp)
          | some p =>
              rw [hg] at h
              dsimp only at h
              by_cases hlt : (rp.headI).speed_limit < |p.speed_limit|
              · rw [if_pos hlt] at h
                cases hext : BrakingPoints.extend_loop res_net mass dt fb sp ob
                    (f + 1) idx0 rp vis with
                | error e => rw [hext] at h; exact absurd h (by simp)
                | ok trip =>
                    obtain ⟨idx1, rp1, vis1⟩ := trip
                    rw [hext] at h
                    dsimp only at h
                    cases hg1 : sp.get? idx1 with
                    | none => rw [hg1] at h; exact absurd h (by simp)
                    | some p1 =>
                        rw [hg1] at h
                        dsimp only at h
                        obtain ⟨hne1, hgood1, hlast1⟩ :=
                          extend_loop_inv res_net mass dt fb sp ob _ _ _ _ _ _ _ hext
                        obtain ⟨hne2, hgood2, hlast2⟩ := ih _ _ _ _ _ h
                        refine ⟨fun _ => hne2 (by simp),
                          fun hv => hgood2 (hgood1 hv), fun hrp => ?_⟩
                        calc r.getLast?
                            = (BrakingPoint.mk p1.offset |p1.speed_limit|
                                |p1.speed_limit| :: rp1).getLast? :=
                              hlast2 (by simp)
                          _ = rp1.getLast? := getLast?_cons_of_ne_nil _ hne1
                          _ = rp.getLast? := hlast1
              · rw [if_neg hlt] at h
                dsimp only at h
                cases hg1 : sp.get? idx0 with
                | none => rw [hg1] at h; exact absurd h (by simp)
                | some p1 =>
                    rw [hg1] at h
                    dsimp only at h
                    obtain ⟨hne2, hgood2, hlast2⟩ := ih _ _ _ _ _ h
                    refine ⟨fun _ => hne2 (by simp), fun hv => hgood2 hv,
                      fun hrp => ?_⟩
                    calc r.getLast?
                        = (BrakingPoint.mk p1.offset |p1.speed_limit|
                            |p1.speed_limit| :: rp).getLast? := hlast2 (by simp)
                      _ = rp.getLast? := getLast?_cons_of_ne_nil _ hrp

/-- C9: whenever `BrakingPoints::recalc` succeeds, the points list is
non-empty (it always contains at least the terminal point pushed at the
path's end offset) and the cursor `idx_curr` sits on the last entry,
`points.len() - 1`. -/
theorem recalc_points_nonempty (res_net : ℚ → ℚ → ℚ) (mass dt fb : ℚ)
    (path : PathTpc) (fuel : Nat) (bp : BrakingPoints)
    (visited : List (ℚ × ℚ))
    (h : BrakingPoints.recalc res_net mass dt fb path fuel =
      .ok (bp, visited)) :
    bp.points ≠ [] ∧
    bp.points.head? = some (BrakingPoint.mk path.offset_end 0 0) ∧
    bp.idx_curr + 1 = bp.points.length := by
  unfold BrakingPoints.recalc at h
  dsimp only at h
  cases hl : BrakingPoints.recalc_loop res_net mass dt fb path.speed_points
      path.offset_begin fuel path.speed_points.length
      [BrakingPoint.mk path.offset_end 0 0] [] with
  | error e => rw [hl] at h; exact absurd h (by simp)
  | ok pair =>
      obtain ⟨rp', vis'⟩ := pair
      rw [hl] at h
      dsimp only at h
      cases h
      obtain ⟨hne0, _, hlast0⟩ :=
        recalc_loop_inv res_net mass dt fb path.speed_points path.offset_begin
          _ _ _ _ _ _ hl
      have hne : rp' ≠ [] := hne0 (by simp)
      have hlen : 0 < rp'.length := List.length_pos.mpr hne
      refine ⟨by simpa using hne, ?_, ?_⟩
      · rw [List.head?_reverse, hlast0 (by simp)]
        rfl
      · simp only [List.length_reverse]
        omega

/-- C9 witness: a one-breakpoint path produces a four-point curve with the
cursor on the last point. -/
theorem recalc_points_nonempty_witness :
    ([BrakingPoint.mk 100 0 0, BrakingPoint.mk 90 10 0, BrakingPoint.mk 80 10 0,
        BrakingPoint.mk 0 10 10] : List BrakingPoint) ≠ [] ∧
    ([BrakingPoint.mk 100 0 0, BrakingPoint.mk 90 10 0, BrakingPoint.mk 80 10 0,
        BrakingPoint.mk 0 10 10] : List BrakingPoint).head? =
      some (BrakingPoint.mk 100 0 0) ∧ 3 + 1 = 4 := by
  have h := recalc_points_nonempty (fun _ _ => 0) 1 1 100
    (PathTpc.mk 0 100 [SpeedPoint.mk 0 10]) 5
    (BrakingPoints.mk
      [BrakingPoint.mk 100 0 0, BrakingPoint.mk 90 10 0, BrakingPoint.mk 80 10 0,
        BrakingPoint.mk 0 10 10] 3)
    [(90, 10), (100, 0)]
    (by norm_num [BrakingPoints.recalc, BrakingPoints.recalc_loop,
      BrakingPoints.extend_loop, BrakingPoints.skip_idx, List.headI])
  exact h

/-- C4: every hypothetical backward state `(offset, candidate speed)` at
which the curve-extension loop of `BrakingPoints::recalc` evaluates its
feasibility requirement satisfies
`fric_brake.force_max + net resistive force > 0` whenever `recalc` returns
`Ok` — a state violating the requirement makes `recalc` fail instead of
producing a curve. -/
theorem recalc_braking_feasibility (res_net : ℚ → ℚ → ℚ) (mass dt fb : ℚ)
    (path : PathTpc) (fuel : Nat) (bp : BrakingPoints)
    (visited : List (ℚ × ℚ))
    (h : BrakingPoints.recalc res_net mass dt fb path fuel =
      .ok (bp, visited)) :
    ∀ s ∈ visited, 0 < fb + res_net s.1 s.2 := by
  unfold BrakingPoints.recalc at h
  dsimp only at h
  cases hl : BrakingPoints.recalc_loop res_net mass dt fb path.speed_points
      path.offset_begin fuel path.speed_points.length
      [BrakingPoint.mk path.offset_end 0 0] [] with
  | error e => rw [hl] at h; exact absurd h (by simp)
  | ok pair =>
      obtain ⟨rp', vis'⟩ := pair
      rw [hl] at h
      dsimp only at h
      cases h
      exact (recalc_loop_inv res_net mass dt fb path.speed_points
        path.offset_begin _ _ _ _ _ _ hl).2.1 (by simp)

/-- C4 witness: on the concrete one-breakpoint path the extension loop
visits the backward states `(90, 10)` and `(100, 0)`, and both satisfy the
feasibility requirement with `force_max = 100` and zero net resistance. -/
theorem recalc_braking_feasibility_witness :
    (0 : ℚ) < 100 + (fun (_ _ : ℚ) => (0 : ℚ)) 90 10 ∧
    (0 : ℚ) < 100 + (fun (_ _ : ℚ) => (0 : ℚ)) 100 0 := by
  have h := recalc_braking_feasibility (fun _ _ => 0) 1 1 100
    (PathTpc.mk 0 100 [SpeedPoint.mk 0 10]) 5
    (BrakingPoints.mk
      [BrakingPoint.mk 100 0 0, BrakingPoint.mk 90 10 0, BrakingPoint.mk 80 10 0,
        BrakingPoint.mk 0 10 10] 3)
    [(90, 10), (100, 0)]
    (by norm_num [BrakingPoints.recalc, BrakingPoints.recalc_loop,
      BrakingPoints.extend_loop, BrakingPoints.skip_idx, List.headI])
  exact ⟨h (90, 10) (by simp), h (100, 0) (by simp)⟩

theorem foldl_min_init (g : Nat → ℚ) (L : List Nat) :
    ∀ x y : ℚ, L.foldl (fun acc j => min acc (g j)) (min x y) =
      min (L.foldl (fun acc j => min acc (g j)) x) y := by
  induction L with
  | nil => intro x y; rfl
  | cons a tl ih =>
      intro x y
      simp only [List.foldl_cons]
      rw [show min (min x y) (g a) = min (min x (g a)) y by
        rw [min_assoc, min_comm y (g a), ← min_assoc]]
      exact ih (min x (g a)) y

theorem lookahead_eq_window (points : List BrakingPoint) (far : ℚ)
    (hdesc : points.Pairwise (fun a b => b.offset ≤ a.offset)) :
    ∀ idx, idx < points.length → ∀ init : ℚ,
      BrakingPoints.lookahead_target points far idx init =
        some (BrakingPoints.window_target points far idx init) := by
  intro idx
  induction idx with
  | zero => intro _ init; rfl
  | succ i ih =>
      intro hlt init
      have hi : i < points.length := Nat.lt_of_succ_lt hlt
      set p := points.get ⟨i, hi⟩ with hpdef
      have hget : points.get? i = some p := List.get?_eq_get hi
      unfold BrakingPoints.lookahead_target
      rw [hget]
      dsimp only
      by_cases hof : p.offset ≤ far
      · rw [if_pos hof, ih hi (min init p.speed_target)]
        congr 1
        unfold BrakingPoints.window_target
        rw [List.range_succ, List.filter_append, List.foldl_append]
        have hc : (match points.get? i with
            | some q => decide (q.offset ≤ far)
            | none => false) = true := by
          rw [hget]
          exact decide_eq_true hof
        have hfi : List.filter (fun j =>
            match points.get? j with
            | some q => decide (q.offset ≤ far)
            | none => false) [i] = [i] := by
          simp only [List.filter_cons, List.filter_nil, hc, if_true]
        rw [hfi]
        simp only [List.foldl_cons, List.foldl_nil, hget, Option.getD_some]
        exact foldl_min_init
          (fun j => (((points.get? j).getD default).speed_target)) _ init
          p.speed_target
      · rw [if_neg hof]
        have hnil : List.filter (fun j =>
            match points.get? j with
            | some q => decide (q.offset ≤ far)
            | none => false) (List.range (i + 1)) = [] := by
          rw [List.filter_eq_nil_iff]
          intro j hj
          have hji : j ≤ i := Nat.lt_succ_iff.mp (List.mem_range.mp hj)
          have hjlt : j < points.length := lt_of_le_of_lt hji hi
          have hgj : points.get? j = some (points.get ⟨j, hjlt⟩) :=
            List.get?_eq_get hjlt
          rw [hgj]
          simp only [decide_eq_true_eq]
          intro hcon
          rcases Nat.lt_or_ge j i with hji' | hji'
          · have hrel : p.offset ≤ (points.get ⟨j, hjlt⟩).offset :=
              List.pairwise_iff_get.mp hdesc ⟨j, hjlt⟩ ⟨i, hi⟩ hji'
            exact hof (le_trans hrel hcon)
          · have hji'' : j = i := le_antisymm hji hji'
            subst hji''
            exact hof (by simpa [← hpdef] using hcon)
        unfold BrakingPoints.window_target
        rw [hnil]
        rfl

/-- C5: with the cursor resolved at the caller's offset to entry `idx`
holding point `p`, `BrakingPoints::calc_speeds` (1) hits its hard assertion
(modelled as `none`) whenever the queried speed exceeds `p.speed_limit`, and
(2) otherwise returns `p.speed_limit` together with the minimum speed target
over the lookahead window reaching to `offset + speed * adj_ramp_up_time`
(for an offset-descending points list, as `recalc` produces). -/
theorem calc_speeds_spec (bp : BrakingPoints) (offset speed t : ℚ) (idx : Nat)
    (p : BrakingPoint)
    (hcur : BrakingPoints.cursor_at bp offset = some idx)
    (hget : bp.points.get? idx = some p) :
    (p.speed_limit < speed →
      BrakingPoints.calc_speeds bp offset speed t = none) ∧
    (speed ≤ p.speed_limit →
      bp.points.Pairwise (fun a b => b.offset ≤ a.offset) →
      BrakingPoints.calc_speeds bp offset speed t =
        some ({ bp with idx_curr := idx }, p.speed_limit,
          BrakingPoints.window_target bp.points (offset + speed * t) idx
            p.speed_target)) := by
  constructor
  · intro hlt
    unfold BrakingPoints.calc_speeds
    rw [hcur]
    dsimp only
    rw [hget]
    dsimp only
    rw [if_neg (not_le.mpr hlt)]
  · intro hle hdesc
    have hidx : idx < bp.points.length := (List.get?_eq_some.mp hget).1
    unfold BrakingPoints.calc_speeds
    rw [hcur]
    dsimp only
    rw [hget]
    dsimp only
    rw [if_pos hle,
      lookahead_eq_window bp.points (offset + speed * t) hdesc idx hidx
        p.speed_target]

/-- C5 witness: on a concrete three-point descending curve with the cursor
resolving to index 1, a legal query returns that entry's speed limit and the
windowed minimum target; the same theorem's assertion branch applies to an
over-limit speed. -/
theorem calc_speeds_spec_witness :
    BrakingPoints.calc_speeds
      (BrakingPoints.mk [BrakingPoint.mk 100 5 5, BrakingPoint.mk 50 10 8,
        BrakingPoint.mk 0 20 20] 2) 60 9 5 =
      some ({ BrakingPoints.mk [BrakingPoint.mk 100 5 5, BrakingPoint.mk 50 10 8,
          BrakingPoint.mk 0 20 20] 2 with idx_curr := 1 }, 10,
        BrakingPoints.window_target
          [BrakingPoint.mk 100 5 5, BrakingPoint.mk 50 10 8,
            BrakingPoint.mk 0 20 20] (60 + 9 * 5) 1 8) ∧
    BrakingPoints.calc_speeds
      (BrakingPoints.mk [BrakingPoint.mk 100 5 5, BrakingPoint.mk 50 10 8,
        BrakingPoint.mk 0 20 20] 2) 60 11 5 = none := by
  constructor
  · exact (calc_speeds_spec
      (BrakingPoints.mk [BrakingPoint.mk 100 5 5, BrakingPoint.mk 50 10 8,
        BrakingPoint.mk 0 20 20] 2) 60 9 5 1 (BrakingPoint.mk 50 10 8)
      (by norm_num [BrakingPoints.cursor_at, BrakingPoints.update_cursor])
      (by rfl)).2 (by norm_num)
      (by norm_num [List.pairwise_cons])
  · exact (calc_speeds_spec
      (BrakingPoints.mk [BrakingPoint.mk 100 5 5, BrakingPoint.mk 50 10 8,
        BrakingPoint.mk 0 20 20] 2) 60 11 5 1 (BrakingPoint.mk 50 10 8)
      (by norm_num [BrakingPoints.cursor_at, BrakingPoints.update_cursor])
      (by rfl)).1 (by norm_num)
